import Mathlib

/-!
Shallow embedding of the two applications of this repository
(deploy_app/streamlit_app.py and template_ui/streamlit_app.py).

Python strings are modelled as Lean strings or as lists of characters,
Python exceptions as Except / Option values, and the external
collaborators (the HTTP client, the nbconvert template exporters, the
execution kernel, the Jinja2 renderer) as explicit oracle arguments that
supply the outcome of the corresponding external call.  All definitions
are executable and structurally recursive so that concrete instances
evaluate inside the kernel.
-/

/-! ### String primitives (models of the Python string operations used) -/

/-- Lexicographic comparison of character lists by code point, the order
Python uses to compare strings: s is below-or-equal t. -/
def strLeB : List Char → List Char → Bool
  | [], _ => true
  | _ :: _, [] => false
  | a :: xs, b :: ys => if a < b then true else if b < a then false else strLeB xs ys

/-- Character-wise ASCII lowercasing, the model of Python str.lower for the
ASCII strings handled here. -/
def lowerData (s : List Char) : List Char := s.map Char.toLower

/-- Index of the first occurrence of a pattern, the model of Python
str.find: the least index at which the pattern is a prefix of the rest,
or none. -/
def findSub (s pat : List Char) : Option Nat :=
  if pat.isPrefixOf s then some 0
  else
    match s with
    | [] => none
    | _ :: t => (findSub t pat).map (· + 1)

/-- Substring occurrence test, the model of the Python operator `pat in s`. -/
def containsSub (s pat : List Char) : Bool := (findSub s pat).isSome

/-- Suffix test, the model of Python str.endswith. -/
def endsWithL (s pat : List Char) : Bool := pat.isSuffixOf s

/-- Replacement of every non-overlapping occurrence of a nonempty pattern,
scanning left to right: the model of Python str.replace for the nonempty
patterns used in this development. -/
def replaceList (s pat rep : List Char) : List Char :=
  match s with
  | [] => []
  | a :: t =>
    if h : pat ≠ [] ∧ pat.isPrefixOf (a :: t) then
      rep ++ replaceList ((a :: t).drop pat.length) pat rep
    else
      a :: replaceList t pat rep
termination_by s.length
decreasing_by
  · simp only [List.length_drop]
    have : 0 < pat.length := List.length_pos.mpr h.1
    simp only [List.length_cons]
    omega
  · simp

/-- Stable insertion into a list: the inserted element goes before the first
element it is below-or-equal to. -/
def insertLe (le : α → α → Bool) (a : α) : List α → List α
  | [] => [a]
  | b :: l => if le a b then a :: b :: l else b :: insertLe le a l

/-- Stable insertion sort by a boolean comparison: the model of Python
sorted / list.sort (both are stable, so they agree on every input). -/
def sortLe (le : α → α → Bool) : List α → List α
  | [] => []
  | a :: l => insertLe le a (sortLe le l)

/-! ### Decimal rendering of natural numbers (model of Python integer
formatting inside f-strings) -/

/-- Decimal digit character for a digit below ten. -/
def digitChar10 (d : Nat) : Char :=
  if d = 0 then '0' else if d = 1 then '1' else if d = 2 then '2' else if d = 3 then '3'
  else if d = 4 then '4' else if d = 5 then '5' else if d = 6 then '6' else if d = 7 then '7'
  else if d = 8 then '8' else '9'

/-- Numeric value of a decimal digit character. -/
def digitVal (c : Char) : Nat :=
  if c = '0' then 0 else if c = '1' then 1 else if c = '2' then 2 else if c = '3' then 3
  else if c = '4' then 4 else if c = '5' then 5 else if c = '6' then 6 else if c = '7' then 7
  else if c = '8' then 8 else 9

/-- Decimal rendering of a natural number, most significant digit first:
the model of Python formatting a nonnegative int into an f-string. -/
def natDecimal (n : Nat) : List Char :=
  if h : n < 10 then [digitChar10 n]
  else natDecimal (n / 10) ++ [digitChar10 (n % 10)]
termination_by n
decreasing_by
  exact Nat.div_lt_self (by omega) (by omega)

/-- Numeric value of a decimal digit list, most significant digit first. -/
def natOfDigits (l : List Char) : Nat := l.foldl (fun acc c => 10 * acc + digitVal c) 0

/-! ### Data model: notebook documents (nbformat version 4 nodes) -/

/-- One notebook cell: the cell type tag (markdown, code or raw) and the
source text as the fragment list nbformat stores. -/
structure Cell where
  cell_type : String
  source : List String
deriving DecidableEq

/-- A parsed notebook document: its ordered cells. -/
structure NotebookNode where
  cells : List Cell
deriving DecidableEq

/-- Source text of a cell, the join of its fragments (deploy_app line 208). -/
def cellSrc (c : Cell) : String := String.join c.source

/-! ### deploy_app: HTML escaping and the minimal fallback renderer -/

/-- Model of deploy_app._html_escape (lines 223-228): chained str.replace of
the ampersand, then the angle brackets. -/
def _html_escape (text : String) : String :=
  ⟨replaceList (replaceList (replaceList text.data "&".data "&amp;".data)
      "<".data "&lt;".data) ">".data "&gt;".data⟩

/-- HTML block the minimal fallback renderer emits for one cell (deploy_app
lines 206-214). -/
def minimalCellHtml (c : Cell) : String :=
  if c.cell_type = "markdown" then
    "<div class=\"md-cell\"><pre>" ++ _html_escape (cellSrc c) ++ "</pre></div>"
  else if c.cell_type = "code" then
    "<div class=\"code-cell\"><pre><code>" ++ _html_escape (cellSrc c) ++ "</code></pre></div>"
  else
    "<div class=\"raw-cell\"><pre>" ++ _html_escape (cellSrc c) ++ "</pre></div>"

/-- Leading document scaffold of the minimal fallback renderer (deploy_app
line 216). -/
def minimalHeader : String :=
  "<!doctype html><meta charset=\x27utf-8\x27><style>body\x7bfont-family:system-ui;max-width:960px;margin:2rem auto;padding:0 1rem;line-height:1.6\x7d.code-cell pre\x7bbackground:#111;color:#eee;padding:0.75rem;border-radius:6px;overflow:auto\x7d</style>"

/-- Minimal fallback renderer (deploy_app lines 203-218): the scaffold
followed by one block per cell in document order. -/
def minimalFallbackHtml (node : NotebookNode) : String :=
  minimalHeader ++ String.join (node.cells.map minimalCellHtml)

/-- Model of deploy_app._export_notebook_html (lines 178-220).  The classic
and basic nbconvert exporters are external; their outcomes enter as
oracles (some body on success, none when the exporter raises).  When both
fail, the total minimal fallback renderer runs; the final except branch
(lines 219-220) is unreachable in the model because the fallback cannot
raise. -/
def _export_notebook_html (node : NotebookNode) (classicResult basicResult : Option String) :
    String :=
  match classicResult with
  | some body => body
  | none =>
    match basicResult with
    | some body => body
    | none => minimalFallbackHtml node

/-! ### Conversion entry points of the two applications -/

/-- Outcome of ExecutePreprocessor.preprocess, which mutates the node in
place: success carries the executed node; failure (kernel unavailable, a
cell raising, timeout) raises with a message and leaves the node in
whatever intermediate state it reached. -/
inductive ExecOutcome where
  | success (executed : NotebookNode)
  | failure (reached : NotebookNode) (msg : String)

/-- Model of deploy_app.convert_ipynb_to_html (lines 94-110): read the node,
optionally execute it — any execution failure is swallowed by the bare
except and the node reached so far is used — then export.  The function
always returns HTML. -/
def convert_ipynb_to_html (node : NotebookNode) (execute : Bool) (execOutcome : ExecOutcome)
    (classicResult basicResult : Option String) : String :=
  if execute then
    match execOutcome with
    | .success executed => _export_notebook_html executed classicResult basicResult
    | .failure reached _ => _export_notebook_html reached classicResult basicResult
  else
    _export_notebook_html node classicResult basicResult

/-- Model of template_ui._convert_notebook_to_html (lines 177-193): no
try/except surrounds execution here, so an execution failure propagates
to the caller as an exception; otherwise the default HTMLExporter (an
external collaborator, modelled as a total oracle on nodes) produces the
body. -/
def _convert_notebook_to_html (node : NotebookNode) (execute : Bool) (execOutcome : ExecOutcome)
    (exporterBody : NotebookNode → String) : Except String String :=
  if execute then
    match execOutcome with
    | .success executed => .ok (exporterBody executed)
    | .failure _ msg => .error msg
  else
    .ok (exporterBody node)

/-! ### deploy_app: remote listing, headers, CSS injection, local listing -/

/-- One entry of a GitHub contents API response. -/
structure GHItem where
  type_ : String
  name : String
  path : String
deriving DecidableEq

/-- One HTTP response of the contents API: status code, raw text and the
decoded item array. -/
structure GHResponse where
  status : Nat
  text : String
  items : List GHItem

/-- Result of list_ipynb_from_github: ok with the file list, or the error
message the source returns in the second tuple slot with ok False. -/
inductive GHListResult where
  | ok (files : List String)
  | err (msg : String)
deriving DecidableEq

/-- Paths of the notebook files of one directory listing: items of type file
whose name ends with the notebook extension (deploy_app lines 119, 127). -/
def ghNotebookPaths (items : List GHItem) : List String :=
  (items.filter (fun it => it.type_ = "file" && endsWithL it.name.data ".ipynb".data)).map
    (fun it => it.path)

/-- Model of deploy_app.list_ipynb_from_github (lines 113-129).  The network
is an oracle: top is the response of the top-level contents call and
sub d the response for subdirectory d.  Notebooks of subdirectories are
gathered one level deep; a non-200 subdirectory response is skipped
silently; the final list is sorted by lowercased path. -/
def list_ipynb_from_github (top : GHResponse) (sub : String → GHResponse) : GHListResult :=
  if top.status ≠ 200 then
    .err ("GitHub API error " ++ (⟨natDecimal top.status⟩ : String) ++ ": "
      ++ (⟨top.text.data.take 200⟩ : String))
  else
    let files := ghNotebookPaths top.items
    let dirs := (top.items.filter (fun it => it.type_ = "dir")).map (fun it => it.path)
    let extra := dirs.flatMap (fun d =>
      let r := sub d
      if r.status = 200 then ghNotebookPaths r.items else [])
    .ok (sortLe (fun a b => strLeB (lowerData a.data) (lowerData b.data)) (files ++ extra))

/-- Model of deploy_app._github_headers (lines 158-175).  The token argument
is the value read from the application secrets, none when the secret is
absent or the lookup raised; the Python truthiness test also rejects an
empty token string.  Headers are ordered key-value pairs. -/
def _github_headers (raw : Bool) (token : Option String) : List (String × String) :=
  (match token with
   | some t => if t ≠ "" then [("Authorization", "Bearer " ++ t)] else []
   | none => []) ++
  (if !raw then
    [("Accept", "application/vnd.github+json"), ("X-GitHub-Api-Version", "2022-11-28")]
  else [])

/-- Presence of a header name in a header list. -/
def hasHeader (headers : List (String × String)) (key : String) : Bool :=
  headers.any (fun kv => kv.1 = key)

/-- Model of deploy_app.inject_custom_css (lines 231-253): textual splice of
a style block into the document, searching its lowercased form; blank CSS
(only whitespace, so that str.strip empties it) is a no-op. -/
def inject_custom_css (html css : String) : String :=
  if css.data.all Char.isWhitespace then html
  else
    let style_tag : String := "<style>\n" ++ css ++ "\n</style>"
    let lower := lowerData html.data
    match findSub lower "<head>".data with
    | some head_idx =>
      ⟨html.data.take (head_idx + 6) ++ style_tag.data ++ html.data.drop (head_idx + 6)⟩
    | none =>
      match findSub lower "<html".data with
      | some html_idx =>
        match (findSub (lower.drop html_idx) ">".data).map (· + html_idx) with
        | some end_tag =>
          ⟨html.data.take (end_tag + 1) ++ "<head>".data ++ style_tag.data ++ "</head>".data
            ++ html.data.drop (end_tag + 1)⟩
        | none => style_tag ++ html
      | none => style_tag ++ html

/-- Model of the local fallback listing of deploy_app.main (lines 55-61):
the recursive glob for the notebook extension, sorted as Path objects
(code-point order of the path string), then the checkpoint filter of the
list comprehension.  Inputs and outputs are paths relative to the
notebooks directory. -/
def deployLocalListing (allFiles : List String) : List String :=
  (sortLe (fun a b => strLeB a.data b.data)
      (allFiles.filter (fun p => endsWithL p.data ".ipynb".data))).filter
    (fun p => !containsSub p.data ".ipynb_checkpoints".data)

/-- Model of template_ui._list_notebooks (lines 161-165): recursive glob for
the notebook extension, checkpoint paths dropped, sorted with the
lowercased path string as key. -/
def _list_notebooks (allFiles : List String) : List String :=
  sortLe (fun a b => strLeB (lowerData a.data) (lowerData b.data))
    (allFiles.filter (fun p =>
      endsWithL p.data ".ipynb".data && !containsSub p.data ".ipynb_checkpoints".data))

/-- Source and file list chosen by deploy_app.main (lines 48-61): the GitHub
listing is tried first; when it fails or yields an empty list, the local
notebooks directory is scanned instead (none models a missing directory,
which yields the empty local list). -/
def resolveNotebookSource (gh : GHListResult) (localAll : Option (List String)) :
    String × List String :=
  match gh with
  | .ok files =>
    if files.isEmpty then
      ("local", match localAll with | some l => deployLocalListing l | none => [])
    else ("github", files)
  | .err _ =>
    ("local", match localAll with | some l => deployLocalListing l | none => [])

/-! ### template_ui: cache fingerprint -/

/-- Outcome of Path.stat() in the cache-key computation: the file's
modification time in nanoseconds and its size, or the FileNotFoundError
raised when the file is missing. -/
inductive StatOutcome where
  | found (mtime_ns size : Nat)
  | missing
deriving DecidableEq

/-- Python rendering of a bool inside an f-string. -/
def boolRepr (b : Bool) : String := if b then "True" else "False"

/-- Model of template_ui._compute_notebook_cache_key (lines 168-174): the
raw key string built from path, mtime_ns, size and the execute flag, or
the missing form when stat raises FileNotFoundError.  The source returns
the sha256 hex digest of this string; that external collision-resistant
hash is modelled as the identity on raw keys, which realizes exactly the
injectivity the spec assumes of it. -/
def _compute_notebook_cache_key (path : String) (statRes : StatOutcome) (execute : Bool) :
    String :=
  match statRes with
  | .found m s =>
    path ++ ":" ++ (⟨natDecimal m⟩ : String) ++ ":" ++ (⟨natDecimal s⟩ : String) ++ ":"
      ++ boolRepr execute
  | .missing => path ++ ":missing:" ++ boolRepr execute

/-! ### template_ui: template generation tab -/

/-- Model of template_ui.detect_output_extension (lines 51-56). -/
def detect_output_extension (template_name : String) : String :=
  if endsWithL template_name.data ".html.j2".data then "html"
  else if endsWithL template_name.data ".md.j2".data then "md"
  else "txt"

/-- Stem of a file name, Path(name).stem: the name with its last dot suffix
removed (names without a dot are their own stem). -/
def pathStem (name : String) : String :=
  if containsSub name.data ".".data then
    ⟨(((name.data.reverse.dropWhile (fun c => c ≠ '.')).drop 1)).reverse⟩
  else name

/-- Output file name produced by template_ui.save_output (lines 66-76): the
template stem with any .html / .md fragment removed, tagged _output and
given the detected extension. -/
def save_output_name (template_name : String) : String :=
  let output_extension := detect_output_extension template_name
  let base_name : String :=
    ⟨replaceList (replaceList (pathStem template_name).data ".html".data [])
      ".md".data []⟩
  base_name ++ "_output." ++ output_extension

/-- Observable outcome of one click of the generate button of the templates
tab: the error messages shown, the rendered text when rendering ran, and
the output file written (name and content), when any. -/
structure GenerateOutcome where
  errors : List String
  rendered : Option String
  written : Option (String × String)
deriving DecidableEq

/-- Model of the generate branch of template_ui._ui_templates_tab (lines
111-148).  json.loads of the context field and the Jinja2 rendering are
external calls whose outcomes enter as oracle inputs: a parse failure
reports the JSON error and stops before rendering, a render failure
reports the render error and stops before writing, and otherwise the
output file is written and the rendered text shown. -/
def _ui_templates_tab_generate {Ctx : Type} (selected_template : String)
    (parseResult : Except String Ctx) (renderResult : Ctx → Except String String) :
    GenerateOutcome :=
  match parseResult with
  | .error e => { errors := ["JSON invalide: " ++ e], rendered := none, written := none }
  | .ok ctx =>
    match renderResult ctx with
    | .error e =>
      { errors := ["Erreur lors du rendu du template: " ++ e], rendered := none, written := none }
    | .ok r =>
      { errors := [], rendered := some r,
        written := some (save_output_name selected_template, r) }


/-- Character-wise HTML escaping map, the form in which the spec states the
escaping of the minimal renderer: ampersand and angle brackets become
entities, every other character stays itself.  This is the spec-level
reformulation that the chained-replace _html_escape is proved to equal. -/
def escChar (c : Char) : List Char :=
  if c = '&' then "&amp;".data
  else if c = '<' then "&lt;".data
  else if c = '>' then "&gt;".data
  else [c]

/-! ### Supporting lemmas about the string and number primitives -/

theorem strLeB_total : ∀ s t : List Char, strLeB s t || strLeB t s := by
  intro s
  induction s with
  | nil => intro t; simp [strLeB]
  | cons a xs ih =>
    intro t
    cases t with
    | nil => simp [strLeB]
    | cons b ys =>
      by_cases hab : a < b
      · simp [strLeB, hab]
      · by_cases hba : b < a
        · simp [strLeB, hab, hba]
        · simpa [strLeB, hab, hba] using ih ys

theorem strLeB_trans : ∀ s t u : List Char, strLeB s t → strLeB t u → strLeB s u := by
  intro s
  induction s with
  | nil => intro t u _ _; simp [strLeB]
  | cons a xs ih =>
    intro t u h1 h2
    cases t with
    | nil => simp [strLeB] at h1
    | cons b ys =>
      cases u with
      | nil => simp [strLeB] at h2
      | cons c zs =>
        by_cases hab : a < b
        · by_cases hbc : b < c
          · simp [strLeB, lt_trans hab hbc]
          · by_cases hcb : c < b
            · simp [strLeB, hbc, hcb] at h2
            · have : b = c := le_antisymm (not_lt.mp hcb) (not_lt.mp hbc)
              subst this
              simp [strLeB, hab]
        · by_cases hba : b < a
          · simp [strLeB, hab, hba] at h1
          · have hab2 : a = b := le_antisymm (not_lt.mp hba) (not_lt.mp hab)
            subst hab2
            simp only [strLeB, hab, if_neg (lt_irrefl a), if_neg hab] at h1 h2 ⊢
            by_cases hac : a < c
            · simp [hac]
            · by_cases hca : c < a
              · simp [hac, hca] at h2
              · simp only [if_neg hac, if_neg hca] at h2 ⊢
                exact ih ys zs h1 h2

theorem mem_insertLe (le : α → α → Bool) (a x : α) :
    ∀ l : List α, x ∈ insertLe le a l ↔ x = a ∨ x ∈ l := by
  intro l
  induction l with
  | nil => simp [insertLe]
  | cons b t ih =>
    by_cases h : le a b
    · simp [insertLe, h]
    · simp only [insertLe, if_neg h, List.mem_cons, ih]
      tauto

theorem mem_sortLe (le : α → α → Bool) (x : α) :
    ∀ l : List α, x ∈ sortLe le l ↔ x ∈ l := by
  intro l
  induction l with
  | nil => simp [sortLe]
  | cons a t ih =>
    simp only [sortLe, mem_insertLe, List.mem_cons, ih]

theorem pairwise_insertLe (le : α → α → Bool)
    (htrans : ∀ a b c, le a b → le b c → le a c)
    (htotal : ∀ a b, le a b || le b a) (a : α) :
    ∀ l : List α, l.Pairwise (le · ·) → (insertLe le a l).Pairwise (le · ·) := by
  intro l
  induction l with
  | nil => intro _; simp [insertLe]
  | cons b t ih =>
    intro hp
    rw [List.pairwise_cons] at hp
    by_cases h : le a b
    · rw [insertLe, if_pos h]
      refine List.pairwise_cons.mpr ⟨?_, List.pairwise_cons.mpr hp⟩
      intro x hx
      rcases List.mem_cons.mp hx with rfl | hx
      · exact h
      · exact htrans a b x h (hp.1 x hx)
    · rw [insertLe, if_neg h]
      refine List.pairwise_cons.mpr ⟨?_, ih hp.2⟩
      intro x hx
      rcases (mem_insertLe le a x t).mp hx with hxa | hx
      · rw [hxa]
        have hba := htotal a b
        rw [Bool.eq_false_iff.mpr h, Bool.false_or] at hba
        exact hba
      · exact hp.1 x hx

theorem pairwise_sortLe (le : α → α → Bool)
    (htrans : ∀ a b c, le a b → le b c → le a c)
    (htotal : ∀ a b, le a b || le b a) :
    ∀ l : List α, (sortLe le l).Pairwise (le · ·) := by
  intro l
  induction l with
  | nil => simp [sortLe]
  | cons a t ih => exact pairwise_insertLe le htrans htotal a (sortLe le t) ih

theorem findSub_some (pat : List Char) :
    ∀ (s : List Char) (i : Nat), findSub s pat = some i →
      pat.isPrefixOf (s.drop i) = true ∧ ∀ j, j < i → pat.isPrefixOf (s.drop j) = false := by
  intro s
  induction s with
  | nil =>
    intro i h
    rw [findSub] at h
    by_cases hp : pat.isPrefixOf ([] : List Char)
    · simp only [hp, if_true, Option.some.injEq] at h
      subst h
      exact ⟨hp, by omega⟩
    · simp [hp] at h
  | cons c t ih =>
    intro i h
    rw [findSub] at h
    by_cases hp : pat.isPrefixOf (c :: t)
    · simp only [hp, if_true, Option.some.injEq] at h
      subst h
      exact ⟨hp, by omega⟩
    · simp only [hp, Bool.false_eq_true, if_false, Option.map_eq_some'] at h
      obtain ⟨j, hj, rfl⟩ := h
      obtain ⟨h1, h2⟩ := ih j hj
      refine ⟨h1, ?_⟩
      intro k hk
      cases k with
      | zero => simpa using Bool.of_not_eq_true hp
      | succ k => exact h2 k (by omega)

theorem findSub_none (pat : List Char) :
    ∀ s : List Char, findSub s pat = none → ∀ j, pat.isPrefixOf (s.drop j) = false := by
  intro s
  induction s with
  | nil =>
    intro h j
    rw [findSub] at h
    by_cases hp : pat.isPrefixOf ([] : List Char)
    · simp [hp] at h
    · simpa [List.drop_nil] using Bool.of_not_eq_true hp
  | cons c t ih =>
    intro h j
    rw [findSub] at h
    by_cases hp : pat.isPrefixOf (c :: t)
    · simp [hp] at h
    · simp only [hp, Bool.false_eq_true, if_false, Option.map_eq_none'] at h
      cases j with
      | zero => simpa using Bool.of_not_eq_true hp
      | succ j => exact ih h j

theorem digitVal_digitChar10 : ∀ d : Nat, d < 10 → digitVal (digitChar10 d) = d := by decide

theorem digitChar10_ne_colon (d : Nat) : digitChar10 d ≠ ':' := by
  unfold digitChar10
  split_ifs <;> decide

theorem colon_not_mem_natDecimal : ∀ n : Nat, ':' ∉ natDecimal n := by
  intro n
  induction n using Nat.strong_induction_on with
  | _ n ih =>
    rw [natDecimal]
    by_cases h : n < 10
    · rw [dif_pos h]
      simp only [List.mem_singleton]
      exact fun hc => digitChar10_ne_colon n hc.symm
    · rw [dif_neg h]
      simp only [List.mem_append, List.mem_singleton, not_or]
      refine ⟨ih (n / 10) (Nat.div_lt_self (by omega) (by omega)), ?_⟩
      exact fun hc => digitChar10_ne_colon (n % 10) hc.symm

theorem foldl_natDecimal (n : Nat) :
    ∀ acc : Nat, List.foldl (fun acc c => 10 * acc + digitVal c) acc (natDecimal n)
      = acc * 10 ^ (natDecimal n).length + n := by
  induction n using Nat.strong_induction_on with
  | _ n ih =>
    intro acc
    rw [natDecimal]
    by_cases h : n < 10
    · rw [dif_pos h]
      simp only [List.foldl_cons, List.foldl_nil, List.length_singleton,
        digitVal_digitChar10 n h, pow_one]
      ring
    · rw [dif_neg h]
      simp only [List.foldl_append, List.foldl_cons, List.foldl_nil,
        List.length_append, List.length_singleton]
      rw [ih (n / 10) (Nat.div_lt_self (by omega) (by omega)) acc]
      rw [digitVal_digitChar10 (n % 10) (Nat.mod_lt n (by omega))]
      have hmod : 10 * (n / 10) + n % 10 = n := Nat.div_add_mod n 10
      rw [pow_succ]
      ring_nf
      omega

theorem natOfDigits_natDecimal (n : Nat) : natOfDigits (natDecimal n) = n := by
  unfold natOfDigits
  rw [foldl_natDecimal n 0]
  simp

theorem natDecimal_inj {m n : Nat} (h : natDecimal m = natDecimal n) : m = n := by
  have := natOfDigits_natDecimal m
  rw [h, natOfDigits_natDecimal n] at this
  exact this.symm

theorem replaceList_single (c : Char) (rep : List Char) :
    ∀ s : List Char, replaceList s [c] rep = s.flatMap (fun a => if a = c then rep else [a]) := by
  intro s
  induction s with
  | nil => simp [replaceList]
  | cons a t ih =>
    rw [replaceList]
    by_cases hac : a = c
    · subst hac
      rw [dif_pos ⟨by simp, by simp [List.isPrefixOf]⟩]
      simp [ih]
    · have hcond : ¬((([c] : List Char) ≠ []) ∧ [c].isPrefixOf (a :: t) = true) := by
        rintro ⟨-, hpre⟩
        simp [List.isPrefixOf] at hpre
        exact hac hpre.symm
      rw [dif_neg hcond]
      simp [ih, hac]

theorem html_escape_data (s : String) :
    (_html_escape s).data = s.data.flatMap escChar := by
  show replaceList (replaceList (replaceList s.data "&".data "&amp;".data)
      "<".data "&lt;".data) ">".data "&gt;".data = s.data.flatMap escChar
  have h1 : "&".data = ['&'] := rfl
  have h2 : "<".data = ['<'] := rfl
  have h3 : ">".data = ['>'] := rfl
  rw [h1, h2, h3, replaceList_single, replaceList_single, replaceList_single,
    List.flatMap_assoc, List.flatMap_assoc]
  have hfun : (fun a => (if a = '&' then "&amp;".data else [a]).flatMap
        (fun b => (if b = '<' then "&lt;".data else [b]).flatMap
          (fun d => if d = '>' then "&gt;".data else [d]))) = escChar := by
    funext a
    by_cases ha1 : a = '&'
    · subst ha1; decide
    · by_cases ha2 : a = '<'
      · subst ha2; decide
      · by_cases ha3 : a = '>'
        · subst ha3; decide
        · simp [escChar, ha1, ha2, ha3]
  rw [hfun]

theorem isPrefixOf_append_left {α} [BEq α] [LawfulBEq α] :
    ∀ (p s t : List α), p.isPrefixOf s = true → p.isPrefixOf (s ++ t) = true := by
  intro p
  induction p with
  | nil => intro s t _; simp [List.isPrefixOf]
  | cons a p ih =>
    intro s t h
    cases s with
    | nil => simp [List.isPrefixOf] at h
    | cons b s =>
      simp only [List.isPrefixOf, Bool.and_eq_true, beq_iff_eq] at h ⊢
      exact ⟨h.1, ih s t h.2⟩

/-- C1 (counterexample): the conversion of the template_ui notebooks tab
does not catch execution failure — with execute set, a failing execution
makes _convert_notebook_to_html return an error rather than HTML. -/
theorem c1_execution_failure_counterexample :
    _convert_notebook_to_html { cells := [{ cell_type := "code", source := ["1/0"] }] } true
        (ExecOutcome.failure { cells := [{ cell_type := "code", source := ["1/0"] }] }
          "kernel unavailable")
        (fun _ => "<p>html</p>")
      = Except.error "kernel unavailable" := rfl

/-- C1 (amended): in deploy_app, convert_ipynb_to_html swallows execution
failure and still returns the HTML export of the document state the
execution reached (and of the executed document on success); in
template_ui, _convert_notebook_to_html propagates execution failure as an
error instead of returning HTML. -/
theorem c1_amended_execution_failure_handling :
    (∀ (node reached : NotebookNode) (msg : String) (classicResult basicResult : Option String),
      convert_ipynb_to_html node true (ExecOutcome.failure reached msg) classicResult basicResult
        = _export_notebook_html reached classicResult basicResult) ∧
    (∀ (node executed : NotebookNode) (classicResult basicResult : Option String),
      convert_ipynb_to_html node true (ExecOutcome.success executed) classicResult basicResult
        = _export_notebook_html executed classicResult basicResult) ∧
    (∀ (node : NotebookNode) (execOutcome : ExecOutcome)
        (classicResult basicResult : Option String),
      convert_ipynb_to_html node false execOutcome classicResult basicResult
        = _export_notebook_html node classicResult basicResult) ∧
    (∀ (node reached : NotebookNode) (msg : String) (exporterBody : NotebookNode → String),
      _convert_notebook_to_html node true (ExecOutcome.failure reached msg) exporterBody
        = Except.error msg) :=
  ⟨fun _ _ _ _ _ => rfl, fun _ _ _ _ => rfl, fun _ _ _ _ => rfl, fun _ _ _ _ => rfl⟩

/-- C3: when the remote listing fails or returns an empty list, resolution
retries exactly once in local mode — the local scan is used as produced,
with no further fallback — and the reported source is the one actually
used: github exactly when the remote listing succeeded with a non-empty
list, local otherwise. -/
theorem c3_remote_fallback_two_step (gh : GHListResult) (localAll : Option (List String)) :
    ((∃ msg, gh = GHListResult.err msg) ∨ gh = GHListResult.ok [] →
      resolveNotebookSource gh localAll
        = ("local", match localAll with
            | some l => deployLocalListing l
            | none => [])) ∧
    (∀ files, gh = GHListResult.ok files → files ≠ [] →
      resolveNotebookSource gh localAll = ("github", files)) := by
  constructor
  · rintro (⟨msg, rfl⟩ | rfl)
    · rfl
    · rfl
  · rintro files rfl hne
    simp [resolveNotebookSource, hne]

/-- C3 (witness): concrete fallback runs of the resolver. -/
theorem c3_remote_fallback_two_step_witness :
    resolveNotebookSource (GHListResult.err "GitHub API error 404: nope") (some ["a.ipynb"])
        = ("local", ["a.ipynb"]) ∧
    resolveNotebookSource (GHListResult.ok []) none = ("local", []) ∧
    resolveNotebookSource (GHListResult.ok ["notebooks/x.ipynb"]) (some [])
        = ("github", ["notebooks/x.ipynb"]) := by
  refine ⟨?_, ?_, ?_⟩
  · have h := (c3_remote_fallback_two_step (GHListResult.err "GitHub API error 404: nope")
      (some ["a.ipynb"])).1 (Or.inl ⟨_, rfl⟩)
    rw [h]
    decide
  · exact (c3_remote_fallback_two_step (GHListResult.ok []) none).1 (Or.inr rfl)
  · exact (c3_remote_fallback_two_step (GHListResult.ok ["notebooks/x.ipynb"]) (some [])).2
      ["notebooks/x.ipynb"] rfl (by decide)

/-- C8 (counterexample): with a bearer token configured, the Authorization
header is present on raw-content fetches too, contradicting the claim
that it is absent there. -/
theorem c8_auth_on_raw_counterexample :
    hasHeader (_github_headers true (some "ghp_token123")) "Authorization" = true := by decide

/-- C8 (amended): with a non-empty token the Authorization header is present
on API-listing calls and on raw-content fetches alike (raw fetches only
drop the Accept and API-version headers); with no token configured no
Authorization header is sent on either kind of call and the header
computation still succeeds. -/
theorem c8_amended_headers (token : String) (hne : token ≠ "") :
    hasHeader (_github_headers false (some token)) "Authorization" = true ∧
    hasHeader (_github_headers true (some token)) "Authorization" = true ∧
    hasHeader (_github_headers false none) "Authorization" = false ∧
    hasHeader (_github_headers true none) "Authorization" = false ∧
    hasHeader (_github_headers false (some token)) "Accept" = true ∧
    hasHeader (_github_headers true (some token)) "Accept" = false := by
  refine ⟨?_, ?_, by decide, by decide, ?_, ?_⟩ <;>
    simp [_github_headers, hasHeader, hne]

/-- C8 (witness): the amended header facts at a concrete token. -/
theorem c8_amended_headers_witness :
    hasHeader (_github_headers false (some "ghp_x")) "Authorization" = true ∧
    hasHeader (_github_headers true (some "ghp_x")) "Authorization" = true ∧
    hasHeader (_github_headers false none) "Authorization" = false ∧
    hasHeader (_github_headers true none) "Authorization" = false ∧
    hasHeader (_github_headers false (some "ghp_x")) "Accept" = true ∧
    hasHeader (_github_headers true (some "ghp_x")) "Accept" = false :=
  c8_amended_headers "ghp_x" (by decide)

/-- C9: an invalid template-context JSON makes the generate action report an
error containing JSON invalide, render nothing, write no output file, and
its outcome does not depend on the template renderer at all (the renderer
is never invoked). -/
theorem c9_invalid_json_rejected (Ctx : Type) (selected_template msg : String)
    (renderResult : Ctx → Except String String) :
    (_ui_templates_tab_generate selected_template (Except.error msg) renderResult).errors
        = ["JSON invalide: " ++ msg] ∧
    containsSub ("JSON invalide: " ++ msg).data "JSON invalide".data = true ∧
    (_ui_templates_tab_generate selected_template (Except.error msg) renderResult).rendered
        = none ∧
    (_ui_templates_tab_generate selected_template (Except.error msg) renderResult).written
        = none ∧
    (∀ renderResult2 : Ctx → Except String String,
      _ui_templates_tab_generate selected_template (Except.error msg) renderResult
        = _ui_templates_tab_generate selected_template (Except.error msg) renderResult2) := by
  refine ⟨rfl, ?_, rfl, rfl, fun _ => rfl⟩
  have hpre : "JSON invalide".data.isPrefixOf ("JSON invalide: " ++ msg).data = true := by
    rw [String.data_append]
    exact isPrefixOf_append_left "JSON invalide".data "JSON invalide: ".data msg.data (by decide)
  rw [containsSub, findSub.eq_def, if_pos hpre]
  rfl

/-- C9 (witness): the rejection at a concrete parse failure. -/
theorem c9_invalid_json_rejected_witness :
    _ui_templates_tab_generate "letter.md.j2" (Except.error "Expecting value")
        (fun _ : Unit => Except.ok "out")
      = { errors := ["JSON invalide: Expecting value"], rendered := none, written := none } ∧
    containsSub "JSON invalide: Expecting value".data "JSON invalide".data = true := by
  have h := c9_invalid_json_rejected Unit "letter.md.j2" "Expecting value"
    (fun _ => Except.ok "out")
  exact ⟨rfl, h.2.1⟩

/-- C10: when the top-level remote call succeeds and a one-level-deep
subdirectory call fails, the overall listing is still ok and identical to
the listing obtained when that subdirectory is simply empty — the failure
is silently absorbed into a partial result. -/
theorem c10_subdir_failure_ignored (top : GHResponse) (sub : String → GHResponse) (d : String)
    (htop : top.status = 200) (hfail : (sub d).status ≠ 200) :
    (∃ files, list_ipynb_from_github top sub = GHListResult.ok files) ∧
    list_ipynb_from_github top sub
      = list_ipynb_from_github top
          (fun x => if x = d then { status := 200, text := "", items := [] } else sub x) := by
  have hT : ¬ top.status ≠ 200 := by simp [htop]
  constructor
  · exact ⟨_, by rw [list_ipynb_from_github, if_neg hT]⟩
  · rw [list_ipynb_from_github, list_ipynb_from_github, if_neg hT, if_neg hT]
    have hfun : (fun dd =>
          let r := sub dd
          if r.status = 200 then ghNotebookPaths r.items else [])
        = (fun dd =>
          let r := if dd = d then ({ status := 200, text := "", items := [] } : GHResponse)
            else sub dd
          if r.status = 200 then ghNotebookPaths r.items else []) := by
      funext dd
      by_cases hdd : dd = d
      · subst hdd
        simp only [if_pos rfl]
        rw [if_neg hfail]
        simp [ghNotebookPaths]
      · simp [hdd]
    rw [hfun]

/-- C10 (witness): a concrete partially failing remote listing. -/
theorem c10_subdir_failure_ignored_witness :
    list_ipynb_from_github
        { status := 200, text := "",
          items := [{ type_ := "dir", name := "sub", path := "nb/sub" }] }
        (fun _ =>
          { status := 500, text := "boom",
            items := [{ type_ := "file", name := "x.ipynb", path := "nb/sub/x.ipynb" }] })
      = GHListResult.ok [] := by
  have h := c10_subdir_failure_ignored
    { status := 200, text := "",
      items := [{ type_ := "dir", name := "sub", path := "nb/sub" }] }
    (fun _ =>
      { status := 500, text := "boom",
        items := [{ type_ := "file", name := "x.ipynb", path := "nb/sub/x.ipynb" }] })
    "nb/sub" rfl (by decide)
  rw [h.2]
  decide

theorem data_mk (l : List Char) : (String.mk l).data = l := rfl

/-- C5: the cache fingerprint is total over stat outcomes — a missing file
yields its own distinguishable missing key, never equal to any
present-file key of the same path and flag — and changing the
modification time alone (path, size and execute flag fixed) changes the
fingerprint. -/
theorem c5_cache_fingerprint (path : String) (execute : Bool) :
    (∀ m s : Nat, _compute_notebook_cache_key path (StatOutcome.found m s) execute
        ≠ _compute_notebook_cache_key path StatOutcome.missing execute) ∧
    (∀ m m2 s : Nat, m ≠ m2 →
      _compute_notebook_cache_key path (StatOutcome.found m s) execute
        ≠ _compute_notebook_cache_key path (StatOutcome.found m2 s) execute) := by
  constructor
  · intro m s h
    have hc := congrArg (fun t => List.count ':' t.data) h
    simp only [_compute_notebook_cache_key, String.data_append, data_mk,
      List.count_append] at hc
    rw [List.count_eq_zero.mpr (colon_not_mem_natDecimal m),
      List.count_eq_zero.mpr (colon_not_mem_natDecimal s)] at hc
    have h1 : List.count ':' ":".data = 1 := by decide
    have h2 : List.count ':' ":missing:".data = 2 := by decide
    rw [h1, h2] at hc
    omega
  · intro m m2 s hne h
    have hd := congrArg String.data h
    simp only [_compute_notebook_cache_key, String.data_append, data_mk,
      List.append_assoc] at hd
    have e1 := List.append_cancel_left hd
    have e2 := List.append_cancel_left e1
    have e3 := List.append_cancel_right e2
    exact hne (natDecimal_inj e3)

/-- C5 (witness): the fingerprint facts at a concrete path and stat data. -/
theorem c5_cache_fingerprint_witness :
    _compute_notebook_cache_key "nb/a.ipynb" (StatOutcome.found 1 2) true
        ≠ _compute_notebook_cache_key "nb/a.ipynb" StatOutcome.missing true ∧
    _compute_notebook_cache_key "nb/a.ipynb" (StatOutcome.found 1 2) true
        ≠ _compute_notebook_cache_key "nb/a.ipynb" (StatOutcome.found 3 2) true :=
  ⟨(c5_cache_fingerprint "nb/a.ipynb" true).1 1 2,
   (c5_cache_fingerprint "nb/a.ipynb" true).2 1 3 2 (by decide)⟩

/-- C7 (counterexample): deploy_app sorts its local listing in plain
case-sensitive order, so a capitalized name precedes a lowercase one even
though its lowercased form is greater — the listing is not
case-insensitively sorted. -/
theorem c7_case_sensitive_sort_counterexample :
    deployLocalListing ["B.ipynb", "a.ipynb"] = ["B.ipynb", "a.ipynb"] ∧
    strLeB (lowerData "B.ipynb".data) (lowerData "a.ipynb".data) = false := by
  constructor <;> decide

/-- C7 (amended): the template_ui listing is sorted case-insensitively
(every earlier entry is lowercase-below-or-equal every later one), while
the deploy_app local listing is sorted in plain case-sensitive code-point
order. -/
theorem c7_amended_listing_order :
    (∀ allFiles : List String, (_list_notebooks allFiles).Pairwise
        (fun a b => strLeB (lowerData a.data) (lowerData b.data))) ∧
    (∀ allFiles : List String, (deployLocalListing allFiles).Pairwise
        (fun a b => strLeB a.data b.data)) := by
  constructor
  · intro allFiles
    unfold _list_notebooks
    exact pairwise_sortLe (fun a b : String => strLeB (lowerData a.data) (lowerData b.data))
      (fun a b c hab hbc => strLeB_trans _ _ _ hab hbc)
      (fun a b => strLeB_total _ _) _
  · intro allFiles
    have hs := pairwise_sortLe (fun a b : String => strLeB a.data b.data)
      (fun a b c hab hbc => strLeB_trans _ _ _ hab hbc)
      (fun a b => strLeB_total _ _)
      (allFiles.filter (fun p => endsWithL p.data ".ipynb".data))
    exact List.Pairwise.sublist (List.filter_sublist _) hs

theorem mem_ghNotebookPaths {items : List GHItem} {f : String}
    (h : f ∈ ghNotebookPaths items) :
    ∃ it ∈ items, it.path = f ∧ endsWithL it.name.data ".ipynb".data = true := by
  unfold ghNotebookPaths at h
  rw [List.mem_map] at h
  obtain ⟨it, hit, rfl⟩ := h
  rw [List.mem_filter] at hit
  obtain ⟨hmem, hcond⟩ := hit
  rw [Bool.and_eq_true] at hcond
  exact ⟨it, hmem, rfl, hcond.2⟩

/-- C2 (counterexample): the remote listing does not exclude
checkpoint-directory entries — a checkpoint directory returned by the
top-level call is descended into and its notebooks are listed, so the
result contains an entry with the checkpoint marker. -/
theorem c2_checkpoint_counterexample :
    list_ipynb_from_github
        { status := 200, text := "",
          items := [{ type_ := "dir", name := ".ipynb_checkpoints",
                      path := "notebooks/.ipynb_checkpoints" }] }
        (fun _ =>
          { status := 200, text := "",
            items := [{ type_ := "file", name := "a-checkpoint.ipynb",
                        path := "notebooks/.ipynb_checkpoints/a-checkpoint.ipynb" }] })
      = GHListResult.ok ["notebooks/.ipynb_checkpoints/a-checkpoint.ipynb"] ∧
    containsSub "notebooks/.ipynb_checkpoints/a-checkpoint.ipynb".data
        ".ipynb_checkpoints".data = true := by
  constructor <;> decide

/-- C2 (amended): both local listings return only entries that end with the
notebook extension and contain no checkpoint marker; the remote listing
guarantees only that every entry is the path of an item whose name ends
with the notebook extension (drawn from the top directory or a one-level
subdirectory) and does not exclude checkpoint-directory entries. -/
theorem c2_amended_listing_invariant :
    (∀ (allFiles : List String) (f : String), f ∈ deployLocalListing allFiles →
      endsWithL f.data ".ipynb".data = true ∧
      containsSub f.data ".ipynb_checkpoints".data = false) ∧
    (∀ (allFiles : List String) (f : String), f ∈ _list_notebooks allFiles →
      endsWithL f.data ".ipynb".data = true ∧
      containsSub f.data ".ipynb_checkpoints".data = false) ∧
    (∀ (top : GHResponse) (sub : String → GHResponse) (files : List String) (f : String),
      list_ipynb_from_github top sub = GHListResult.ok files → f ∈ files →
      ∃ it : GHItem, it.path = f ∧ endsWithL it.name.data ".ipynb".data = true ∧
        (it ∈ top.items ∨ ∃ d, d ∈ (top.items.filter (fun x => x.type_ = "dir")).map
            (fun x => x.path) ∧ it ∈ (sub d).items)) := by
  refine ⟨?_, ?_, ?_⟩
  · intro allFiles f hf
    unfold deployLocalListing at hf
    rw [List.mem_filter] at hf
    obtain ⟨hsorted, hck⟩ := hf
    rw [mem_sortLe, List.mem_filter] at hsorted
    refine ⟨hsorted.2, ?_⟩
    rw [Bool.not_eq_true'] at hck
    exact hck
  · intro allFiles f hf
    unfold _list_notebooks at hf
    rw [mem_sortLe, List.mem_filter, Bool.and_eq_true] at hf
    refine ⟨hf.2.1, ?_⟩
    have := hf.2.2
    rw [Bool.not_eq_true'] at this
    exact this
  · intro top sub files f hres hf
    by_cases hstat : top.status ≠ 200
    · rw [list_ipynb_from_github, if_pos hstat] at hres
      exact absurd hres (by simp)
    · rw [list_ipynb_from_github, if_neg hstat] at hres
      cases hres
      rw [mem_sortLe, List.mem_append] at hf
      rcases hf with hf | hf
      · obtain ⟨it, hmem, hpath, hname⟩ := mem_ghNotebookPaths hf
        exact ⟨it, hpath, hname, Or.inl hmem⟩
      · rw [List.mem_flatMap] at hf
        obtain ⟨d, hd, hfd⟩ := hf
        by_cases hsd : (sub d).status = 200
        · rw [if_pos hsd] at hfd
          obtain ⟨it, hmem, hpath, hname⟩ := mem_ghNotebookPaths hfd
          exact ⟨it, hpath, hname, Or.inr ⟨d, hd, hmem⟩⟩
        · rw [if_neg hsd] at hfd
          exact absurd hfd (by simp)

/-- C2 (witness): the local invariant at a concrete directory scan. -/
theorem c2_amended_listing_invariant_witness :
    endsWithL "a.ipynb".data ".ipynb".data = true ∧
    containsSub "a.ipynb".data ".ipynb_checkpoints".data = false :=
  c2_amended_listing_invariant.1 ["a.ipynb", "notes.txt"] "a.ipynb" (by decide)

/-- C4: when both templated renderers fail, the export falls back to the
minimal renderer, a total function returning the fixed scaffold followed
by one HTML block per cell in document order; each block carries the
cell-type style class (the markdown, code and raw classes are pairwise
distinct) and the cell source appears with the ampersand and angle
brackets escaped character-wise. -/
theorem c4_minimal_fallback_renderer (node : NotebookNode) :
    _export_notebook_html node none none
        = minimalHeader ++ String.join (node.cells.map minimalCellHtml) ∧
    (∀ c : Cell, (minimalCellHtml c).data
        = (if c.cell_type = "markdown" then "<div class=\"md-cell\"><pre>".data
           else if c.cell_type = "code" then "<div class=\"code-cell\"><pre><code>".data
           else "<div class=\"raw-cell\"><pre>".data)
          ++ ((cellSrc c).data.flatMap escChar
          ++ (if c.cell_type = "markdown" then "</pre></div>".data
              else if c.cell_type = "code" then "</code></pre></div>".data
              else "</pre></div>".data))) ∧
    ("md-cell" : String) ≠ "code-cell" ∧ ("code-cell" : String) ≠ "raw-cell" ∧
    ("md-cell" : String) ≠ "raw-cell" := by
  refine ⟨rfl, ?_, by decide, by decide, by decide⟩
  intro c
  unfold minimalCellHtml
  by_cases h1 : c.cell_type = "markdown"
  · simp [h1, String.data_append, html_escape_data, List.append_assoc]
  · by_cases h2 : c.cell_type = "code"
    · simp [h1, h2, String.data_append, html_escape_data, List.append_assoc]
    · simp [h1, h2, String.data_append, html_escape_data, List.append_assoc]

/-- C6: CSS injection follows the three-case placement policy on the
lowercased (case-insensitively searched) document — blank CSS leaves the
document unchanged; when the head-opening tag occurs (at its first
occurrence, as characterized), the style block is spliced in right after
it; else, when a root html tag occurs and has a closing angle bracket, a
head section holding the style block is synthesized right after that
bracket; else (no root tag, or a root tag with no closing bracket) the
style block is prepended. -/
theorem c6_css_injection_policy (html css : String) :
    (css.data.all Char.isWhitespace = true → inject_custom_css html css = html) ∧
    (∀ i, css.data.all Char.isWhitespace = false →
      findSub (lowerData html.data) "<head>".data = some i →
      "<head>".data.isPrefixOf ((lowerData html.data).drop i) = true ∧
      (∀ j, j < i → "<head>".data.isPrefixOf ((lowerData html.data).drop j) = false) ∧
      inject_custom_css html css
        = ⟨html.data.take (i + 6) ++ ("<style>\n" ++ css ++ "\n</style>").data
            ++ html.data.drop (i + 6)⟩) ∧
    (∀ i k, css.data.all Char.isWhitespace = false →
      findSub (lowerData html.data) "<head>".data = none →
      findSub (lowerData html.data) "<html".data = some i →
      findSub ((lowerData html.data).drop i) ">".data = some k →
      inject_custom_css html css
        = ⟨html.data.take (k + i + 1) ++ "<head>".data
            ++ ("<style>\n" ++ css ++ "\n</style>").data ++ "</head>".data
            ++ html.data.drop (k + i + 1)⟩) ∧
    (css.data.all Char.isWhitespace = false →
      findSub (lowerData html.data) "<head>".data = none →
      findSub (lowerData html.data) "<html".data = none →
      inject_custom_css html css = ("<style>\n" ++ css ++ "\n</style>") ++ html) ∧
    (∀ i, css.data.all Char.isWhitespace = false →
      findSub (lowerData html.data) "<head>".data = none →
      findSub (lowerData html.data) "<html".data = some i →
      findSub ((lowerData html.data).drop i) ">".data = none →
      inject_custom_css html css = ("<style>\n" ++ css ++ "\n</style>") ++ html) := by
  refine ⟨?_, ?_, ?_, ?_, ?_⟩
  · intro hblank
    unfold inject_custom_css
    rw [if_pos hblank]
  · intro i hblank hfind
    refine ⟨(findSub_some _ _ i hfind).1, (findSub_some _ _ i hfind).2, ?_⟩
    simp only [inject_custom_css, hblank, Bool.false_eq_true, if_false, hfind]
  · intro i k hblank hhead hhtml hgt
    simp only [inject_custom_css, hblank, Bool.false_eq_true, if_false, hhead, hhtml, hgt,
      Option.map_some']
  · intro hblank hhead hhtml
    simp only [inject_custom_css, hblank, Bool.false_eq_true, if_false, hhead, hhtml]
  · intro i hblank hhead hhtml hgt
    simp only [inject_custom_css, hblank, Bool.false_eq_true, if_false, hhead, hhtml, hgt,
      Option.map_none']

/-- C6 (witness): the placement policy at concrete documents — head found,
blank CSS, and head synthesis after a root tag. -/
theorem c6_css_injection_policy_witness :
    inject_custom_css "<HTML><HEAD></HEAD>x" "a"
        = "<HTML><HEAD><style>\na\n</style></HEAD>x" ∧
    inject_custom_css "x" " " = "x" ∧
    inject_custom_css "<html>B" "a"
        = "<html><head><style>\na\n</style></head>B" := by
  refine ⟨?_, ?_, ?_⟩
  · have h := (c6_css_injection_policy "<HTML><HEAD></HEAD>x" "a").2.1 6 (by decide) (by decide)
    rw [h.2.2]
    decide
  · exact (c6_css_injection_policy "x" " ").1 (by decide)
  · have h := (c6_css_injection_policy "<html>B" "a").2.2.1 0 5 (by decide) (by decide)
      (by decide) (by decide)
    rw [h]
    decide
